import Mathlib

/-!
Verification development for the TapPostgres effect coordinator
(`src/admin-console/app/containers/TapPage/TapPostgres/saga.js`).

The saga module defines two worker generators, `getStreams` and
`updateStreamToReplicate`, and a root saga `tapPostgresData` that wires
each of the two action types (`LOAD_STREAMS`, `UPDATE_STREAM_TO_REPLICATE`)
to its worker through `takeLatest`.  We embed

  * the request construction performed by each worker (URL template
    interpolation, method, headers, JSON body),
  * the terminal event each worker emits once the HTTP collaborator
    resolves (success event on a payload, error event on a thrown error),
  * the `takeLatest` scheduling discipline as a small step machine over
    dispatch/resolve events: dispatching an action spawns a fresh task and
    cancels any pending task of the same action kind; a resolve event makes
    a still-pending task emit its terminal event, while a cancelled task
    emits nothing.
-/

namespace Saga

/-- The two action types the root saga `tapPostgresData` listens for:
`LOAD_STREAMS` and `UPDATE_STREAM_TO_REPLICATE`. -/
inductive Kind where
  | loadStreams
  | updateStream
deriving DecidableEq

/-- JSON values, used for the `params` payload of an update action and for
parsed HTTP response bodies. -/
inductive Json where
  | null
  | bool (b : Bool)
  | num (n : Int)
  | str (s : String)
  | arr (elems : List Json)
  | obj (fields : List (String × Json))

/-- Escaping of a single character inside a JSON string literal, as
performed by JavaScript's JSON.stringify. -/
def jsonEscapeChar (c : Char) : String :=
  if c = '"' then "\\\""
  else if c = '\\' then "\\\\"
  else if c = '\n' then "\\n"
  else if c = '\r' then "\\r"
  else if c = '\t' then "\\t"
  else if c = '\x08' then "\\b"
  else if c = '\x0c' then "\\f"
  else String.singleton c

/-- A JSON string literal: the escaped characters surrounded by quotes. -/
def jsonQuote (s : String) : String :=
  "\"" ++ String.join (s.data.map jsonEscapeChar) ++ "\""

mutual

/-- Serialization of a JSON value, as performed by JSON.stringify on the
saga's `action.params` object (source line 30). -/
def Json.stringify : Json → String
  | .null => "null"
  | .bool true => "true"
  | .bool false => "false"
  | .num n => toString n
  | .str s => jsonQuote s
  | .arr elems => "[" ++ stringifyElems elems ++ "]"
  | .obj fields => "\x7b" ++ stringifyFields fields ++ "\x7d"

/-- Comma-separated serialization of the elements of a JSON array. -/
def stringifyElems : List Json → String
  | [] => ""
  | [e] => Json.stringify e
  | e :: es => Json.stringify e ++ "," ++ stringifyElems es

/-- Comma-separated serialization of the key/value pairs of a JSON
object. -/
def stringifyFields : List (String × Json) → String
  | [] => ""
  | [(k, v)] => jsonQuote k ++ ":" ++ Json.stringify v
  | (k, v) :: fs => jsonQuote k ++ ":" ++ Json.stringify v ++ "," ++ stringifyFields fs

end

/-- A dispatched redux action as the workers read it: the action type plus
the fields `targetId`, `tapId`, `streamId`, `params` accessed on the action
object.  A field the dispatcher did not set is `none` (JavaScript
`undefined`). -/
structure Action where
  kind : Kind
  targetId : Option String
  tapId : Option String
  streamId : Option String
  params : Option Json

/-- JavaScript template-literal interpolation of a possibly-absent field:
an absent (`undefined`) field interpolates as the text "undefined". -/
def interp : Option String → String
  | some s => s
  | none => "undefined"

/-- HTTP methods used by the module: the default GET of a bare fetch and
the explicit PATCH of the update worker. -/
inductive Method where
  | GET
  | PATCH
deriving DecidableEq

/-- An outbound HTTP request: method, full URL, header list and optional
body. -/
structure HttpRequest where
  method : Method
  url : String
  headers : List (String × String)
  body : Option String
deriving DecidableEq

/-- The options object the saga may pass to the `request` collaborator,
mirroring the object literal at source lines 28-31. -/
structure RequestOptions where
  method : Method
  headers : List (String × String)
  body : Option String

/-- Modelled from the spec: the `request` collaborator (`utils/request`,
not under src/) performs a fetch of the URL with the given options and
classifies the result; with no options object the issued request is a
plain GET with no headers and no body, and with options it uses exactly
the supplied method, headers and body. -/
def mkRequest (url : String) : Option RequestOptions → HttpRequest
  | none => ⟨Method.GET, url, [], none⟩
  | some o => ⟨o.method, url, o.headers, o.body⟩

/-- URL built by `getStreams` (source line 13): a template literal
interpolating `action.targetId` and `action.tapId`. -/
def getStreamsURL (a : Action) : String :=
  "http://localhost:5000/targets/" ++ interp a.targetId ++ "/taps/" ++
    interp a.tapId ++ "/streams"

/-- The HTTP request issued by `getStreams` (source line 16): the bare
call of the collaborator on the URL, with no options object. -/
def getStreamsRequest (a : Action) : HttpRequest :=
  mkRequest (getStreamsURL a) none

/-- URL built by `updateStreamToReplicate` (source line 24), additionally
interpolating `action.streamId`. -/
def updateStreamURL (a : Action) : String :=
  "http://localhost:5000/targets/" ++ interp a.targetId ++ "/taps/" ++
    interp a.tapId ++ "/streams/" ++ interp a.streamId

/-- The HTTP request issued by `updateStreamToReplicate` (source lines
27-31): PATCH with a Content-Type header and the JSON-stringified
`action.params` as body.  JSON.stringify of an absent `params` is
`undefined`, hence the `Option.map`. -/
def updateStreamRequest (a : Action) : HttpRequest :=
  mkRequest (updateStreamURL a)
    (some ⟨Method.PATCH, [("Content-Type", "application/json")],
      a.params.map Json.stringify⟩)

/-- The request a freshly spawned task issues, by the kind of its
triggering action. -/
def requestFor (a : Action) : HttpRequest :=
  match a.kind with
  | .loadStreams => getStreamsRequest a
  | .updateStream => updateStreamRequest a

/-- An error thrown by the HTTP collaborator: either a transport failure
(no status) or a non-2xx response (with status), as classified by
`utils/request`. -/
structure HttpError where
  message : String
  status : Option Nat
deriving DecidableEq

/-- The four terminal events the workers can put: the action creators
`streamsLoaded`, `streamsLoadedError`, `updateStreamToReplicateDone`,
`updateStreamToReplicateError` imported at source lines 3-8. -/
inductive OutEvent where
  | streamsLoaded (streams : Json)
  | streamsLoadedError (err : HttpError)
  | updateStreamToReplicateDone (response : Json)
  | updateStreamToReplicateError (err : HttpError)

/-- Terminal event of the `getStreams` worker (source lines 15-20): the
try block puts `streamsLoaded` on the resolved payload, the catch block
puts `streamsLoadedError` on the thrown error. -/
def getStreamsOutcome : Except HttpError Json → OutEvent
  | .ok streams => .streamsLoaded streams
  | .error err => .streamsLoadedError err

/-- Terminal event of the `updateStreamToReplicate` worker (source lines
26-35). -/
def updateStreamOutcome : Except HttpError Json → OutEvent
  | .ok response => .updateStreamToReplicateDone response
  | .error err => .updateStreamToReplicateError err

/-- Terminal event of the worker attached to a given action kind. -/
def emitFor (k : Kind) (r : Except HttpError Json) : OutEvent :=
  match k with
  | .loadStreams => getStreamsOutcome r
  | .updateStream => updateStreamOutcome r

/-- A task forked by `takeLatest`: the fresh task identifier and the
action it was forked on. -/
structure Task where
  id : Nat
  act : Action

/-- State of the root saga `tapPostgresData`: the next fresh task id and
the list of tasks that are still pending (forked, not yet resolved, not
cancelled). -/
structure SagaState where
  nextId : Nat
  pending : List Task

/-- Initial state: no task has been forked yet. -/
def initState : SagaState := ⟨0, []⟩

/-- External events driving the root saga: `dispatch a` is a store
dispatch of action `a` (taken by the matching `takeLatest`), and
`resolve i r` is the HTTP collaborator of task `i` settling with result
`r` (`Except.ok` payload or `Except.error` thrown error). -/
inductive Ev where
  | dispatch (a : Action)
  | resolve (i : Nat) (r : Except HttpError Json)

/-- One scheduling step of `tapPostgresData`, returning the new state and
the list of terminal events emitted by this step, tagged with the id of
the emitting task.

`dispatch a`: `takeLatest` forks a fresh worker task for `a` and cancels
any pending task whose action has the same type; nothing is emitted yet.

`resolve i r`: if task `i` is still pending, its worker resumes from the
`yield call` and puts exactly one terminal event; if task `i` was
cancelled (it is no longer pending), its resolution is swallowed and
nothing is emitted. -/
def step (s : SagaState) : Ev → SagaState × List (Nat × OutEvent)
  | .dispatch a =>
      (⟨s.nextId + 1,
        ⟨s.nextId, a⟩ :: s.pending.filter (fun t => t.act.kind != a.kind)⟩, [])
  | .resolve i r =>
      match s.pending.find? (fun t => t.id == i) with
      | some t =>
          (⟨s.nextId, s.pending.filter (fun t => t.id != i)⟩,
            [(i, emitFor t.act.kind r)])
      | none => (s, [])

/-- State after running a list of events. -/
def runState (s : SagaState) : List Ev → SagaState
  | [] => s
  | e :: es => runState (step s e).1 es

/-- Concatenated tagged outputs of running a list of events. -/
def runOut (s : SagaState) : List Ev → List (Nat × OutEvent)
  | [] => []
  | e :: es => (step s e).2 ++ runOut (step s e).1 es

/-- Task `i` emits no terminal event in the output trace `outs`. -/
def NoOutputFor (outs : List (Nat × OutEvent)) (i : Nat) : Prop :=
  ∀ p ∈ outs, p.1 ≠ i

/-- Task `i` emits the terminal event `e` somewhere in the output trace
`outs`. -/
def EmitsFor (outs : List (Nat × OutEvent)) (i : Nat) (e : OutEvent) : Prop :=
  (i, e) ∈ outs

/-- Bool test: the event is a dispatch of an action of kind `k`. -/
def sameKindDispatch (k : Kind) : Ev → Bool
  | .dispatch a => a.kind == k
  | .resolve _ _ => false

/-- Bool test: the event is the resolution of task `i`. -/
def resolvesId (i : Nat) : Ev → Bool
  | .resolve j _ => j == i
  | .dispatch _ => false

/-- The full observable behavior of one worker run: the issued request
and, given the collaborator's settled result, the terminal event.  The
redux store (readable through the `select` effect imported at source
line 1) is passed in but never read: neither worker uses `select`. -/
def workerObservation (Store : Type) (_σ : Store) (a : Action)
    (r : Except HttpError Json) : HttpRequest × OutEvent :=
  (requestFor a, emitFor a.kind r)

/-- A sample `LOAD_STREAMS` action with both identifier fields present. -/
def loadA (tid tap : String) : Action :=
  ⟨Kind.loadStreams, some tid, some tap, none, none⟩

/-- A sample `UPDATE_STREAM_TO_REPLICATE` action with all fields present. -/
def updateA (tid tap sid : String) (p : Json) : Action :=
  ⟨Kind.updateStream, some tid, some tap, some sid, some p⟩

/-- Invariant: every pending task has an id below the fresh-id counter. -/
def Inv (s : SagaState) : Prop :=
  ∀ t ∈ s.pending, t.id < s.nextId

/-- Task `i` has been forked on action `a` at some point: its id is in
the past and any pending record with that id carries action `a`. -/
def Tracked (s : SagaState) (i : Nat) (a : Action) : Prop :=
  i < s.nextId ∧ ∀ t ∈ s.pending, t.id = i → t.act = a

/-- Task `i` can never emit again: its id is in the past and it is no
longer pending (it resolved already or was cancelled). -/
def Dead (s : SagaState) (i : Nat) : Prop :=
  i < s.nextId ∧ ∀ t ∈ s.pending, t.id ≠ i

/-- Task `i`, forked on action `a`, is still pending. -/
def Live (s : SagaState) (i : Nat) (a : Action) : Prop :=
  Tracked s i a ∧ ∃ t ∈ s.pending, t.id = i

theorem inv_init : Inv initState := by
  intro t ht
  simp [initState] at ht

theorem inv_step (s : SagaState) (e : Ev) (h : Inv s) : Inv (step s e).1 := by
  cases e with
  | dispatch a =>
    intro t ht
    simp only [step, List.mem_cons] at ht ⊢
    rcases ht with h1 | h1
    · subst h1
      exact Nat.lt_succ_self _
    · exact Nat.lt_trans (h t (List.mem_of_mem_filter h1)) (Nat.lt_succ_self _)
  | resolve i r =>
    cases hf : s.pending.find? (fun t => t.id == i) with
    | none =>
      simpa [step, hf] using h
    | some t =>
      intro u hu
      simp only [step, hf] at hu ⊢
      exact h u (List.mem_of_mem_filter hu)

theorem nextId_mono_step (s : SagaState) (e : Ev) :
    s.nextId ≤ ((step s e).1).nextId := by
  cases e with
  | dispatch a => exact Nat.le_succ _
  | resolve i r =>
    cases hf : s.pending.find? (fun t => t.id == i) with
    | none => simp [step, hf]
    | some t => simp [step, hf]

theorem tracked_step (s : SagaState) (e : Ev) (i : Nat) (a : Action)
    (h : Tracked s i a) : Tracked (step s e).1 i a := by
  obtain ⟨hlt, hact⟩ := h
  cases e with
  | dispatch a' =>
    refine ⟨Nat.lt_trans hlt (Nat.lt_succ_self _), ?_⟩
    intro t ht hid
    simp only [step, List.mem_cons] at ht
    rcases ht with h1 | h1
    · subst h1
      simp at hid
      omega
    · exact hact t (List.mem_of_mem_filter h1) hid
  | resolve j r =>
    cases hf : s.pending.find? (fun t => t.id == j) with
    | none =>
      simpa [step, hf] using ⟨hlt, hact⟩
    | some t =>
      refine ⟨by simpa [step, hf] using hlt, ?_⟩
      intro u hu hid
      simp only [step, hf] at hu
      exact hact u (List.mem_of_mem_filter hu) hid

theorem dead_step (s : SagaState) (e : Ev) (i : Nat) (h : Dead s i) :
    Dead (step s e).1 i := by
  obtain ⟨hlt, hnp⟩ := h
  cases e with
  | dispatch a' =>
    refine ⟨Nat.lt_trans hlt (Nat.lt_succ_self _), ?_⟩
    intro t ht
    simp only [step, List.mem_cons] at ht
    rcases ht with h1 | h1
    · subst h1
      simp
      omega
    · exact hnp t (List.mem_of_mem_filter h1)
  | resolve j r =>
    cases hf : s.pending.find? (fun t => t.id == j) with
    | none =>
      simpa [step, hf] using ⟨hlt, hnp⟩
    | some t =>
      refine ⟨by simpa [step, hf] using hlt, ?_⟩
      intro u hu
      simp only [step, hf] at hu
      exact hnp u (List.mem_of_mem_filter hu)

theorem dead_step_noout (s : SagaState) (e : Ev) (i : Nat) (h : Dead s i) :
    ∀ p ∈ (step s e).2, p.1 ≠ i := by
  cases e with
  | dispatch a' =>
    intro p hp
    simp [step] at hp
  | resolve j r =>
    cases hf : s.pending.find? (fun t => t.id == j) with
    | none =>
      intro p hp
      simp [step, hf] at hp
    | some t =>
      intro p hp
      simp only [step, hf, List.mem_singleton] at hp
      subst hp
      have ht : t ∈ s.pending := List.mem_of_find?_eq_some hf
      have hid : t.id = j := by simpa using List.find?_some hf
      exact hid ▸ h.2 t ht

theorem out_tag_lt_step (s : SagaState) (e : Ev) (h : Inv s) :
    ∀ p ∈ (step s e).2, p.1 < s.nextId := by
  cases e with
  | dispatch a' =>
    intro p hp
    simp [step] at hp
  | resolve j r =>
    cases hf : s.pending.find? (fun t => t.id == j) with
    | none =>
      intro p hp
      simp [step, hf] at hp
    | some t =>
      intro p hp
      simp only [step, hf, List.mem_singleton] at hp
      subst hp
      have ht : t ∈ s.pending := List.mem_of_find?_eq_some hf
      have hid : t.id = j := by simpa using List.find?_some hf
      exact hid ▸ h t ht

theorem dispatch_noout (s : SagaState) (a : Action) :
    (step s (Ev.dispatch a)).2 = [] := rfl

theorem dispatch_live (s : SagaState) (a : Action) (h : Inv s) :
    Live (step s (Ev.dispatch a)).1 s.nextId a := by
  refine ⟨⟨Nat.lt_succ_self _, ?_⟩, ?_⟩
  · intro t ht hid
    simp only [step, List.mem_cons] at ht
    rcases ht with h1 | h1
    · subst h1
      rfl
    · exact absurd hid (Nat.ne_of_lt (h t (List.mem_of_mem_filter h1)))
  · exact ⟨⟨s.nextId, a⟩, by simp [step], rfl⟩

theorem tracked_dispatch_same_dead (s : SagaState) (i : Nat) (a a' : Action)
    (h : Tracked s i a) (hk : a'.kind = a.kind) :
    Dead (step s (Ev.dispatch a')).1 i := by
  obtain ⟨hlt, hact⟩ := h
  refine ⟨Nat.lt_trans hlt (Nat.lt_succ_self _), ?_⟩
  intro t ht
  simp only [step, List.mem_cons] at ht
  rcases ht with h1 | h1
  · subst h1
    simp
    omega
  · intro hid
    have hmem := List.mem_of_mem_filter h1
    have hkind : (t.act.kind != a'.kind) = true := (List.mem_filter.mp h1).2
    have : t.act = a := hact t hmem hid
    rw [this, hk] at hkind
    simp at hkind

theorem live_step (s : SagaState) (e : Ev) (i : Nat) (a : Action)
    (h : Live s i a)
    (hd : sameKindDispatch a.kind e = false)
    (hr : resolvesId i e = false) :
    Live (step s e).1 i a := by
  obtain ⟨htr, t0, ht0mem, ht0id⟩ := h
  refine ⟨tracked_step s e i a htr, ?_⟩
  cases e with
  | dispatch a' =>
    have hka : a'.kind ≠ a.kind := by
      simpa [sameKindDispatch] using hd
    refine ⟨t0, ?_, ht0id⟩
    simp only [step, List.mem_cons]
    right
    refine List.mem_filter.mpr ⟨ht0mem, ?_⟩
    have : t0.act = a := htr.2 t0 ht0mem ht0id
    simp [this]
    exact fun hh => hka hh.symm
  | resolve j r =>
    have hji : j ≠ i := by
      simpa [resolvesId] using hr
    cases hf : s.pending.find? (fun t => t.id == j) with
    | none =>
      exact ⟨t0, by simpa [step, hf] using ht0mem, ht0id⟩
    | some t =>
      refine ⟨t0, ?_, ht0id⟩
      simp only [step, hf]
      refine List.mem_filter.mpr ⟨ht0mem, ?_⟩
      simp [ht0id]
      exact fun hh => hji hh.symm

theorem live_resolve_out (s : SagaState) (i : Nat) (a : Action)
    (r : Except HttpError Json) (h : Live s i a) :
    (step s (Ev.resolve i r)).2 = [(i, emitFor a.kind r)] ∧
      Dead (step s (Ev.resolve i r)).1 i := by
  obtain ⟨htr, t0, ht0mem, ht0id⟩ := h
  cases hf : s.pending.find? (fun t => t.id == i) with
  | none =>
    have := List.find?_eq_none.mp hf t0 ht0mem
    simp [ht0id] at this
  | some t =>
    have ht : t ∈ s.pending := List.mem_of_find?_eq_some hf
    have hid : t.id = i := by simpa using List.find?_some hf
    have hact : t.act = a := htr.2 t ht hid
    constructor
    · simp [step, hf, hact]
    · refine ⟨by simpa [step, hf] using htr.1, ?_⟩
      intro u hu
      simp only [step, hf] at hu
      have := (List.mem_filter.mp hu).2
      simpa using this

theorem runState_append (s : SagaState) (l₁ l₂ : List Ev) :
    runState s (l₁ ++ l₂) = runState (runState s l₁) l₂ := by
  induction l₁ generalizing s with
  | nil => rfl
  | cons e es ih => simp [runState, ih]

theorem runOut_append (s : SagaState) (l₁ l₂ : List Ev) :
    runOut s (l₁ ++ l₂) = runOut s l₁ ++ runOut (runState s l₁) l₂ := by
  induction l₁ generalizing s with
  | nil => rfl
  | cons e es ih => simp [runOut, runState, ih]

theorem inv_run (s : SagaState) (l : List Ev) (h : Inv s) :
    Inv (runState s l) := by
  induction l generalizing s with
  | nil => exact h
  | cons e es ih => exact ih _ (inv_step s e h)

theorem nextId_mono_run (s : SagaState) (l : List Ev) :
    s.nextId ≤ (runState s l).nextId := by
  induction l generalizing s with
  | nil => exact Nat.le_refl _
  | cons e es ih => exact Nat.le_trans (nextId_mono_step s e) (ih _)

theorem tracked_run (s : SagaState) (l : List Ev) (i : Nat) (a : Action)
    (h : Tracked s i a) : Tracked (runState s l) i a := by
  induction l generalizing s with
  | nil => exact h
  | cons e es ih => exact ih _ (tracked_step s e i a h)

theorem dead_run_noout (s : SagaState) (l : List Ev) (i : Nat) (h : Dead s i) :
    NoOutputFor (runOut s l) i ∧ Dead (runState s l) i := by
  induction l generalizing s with
  | nil => exact ⟨by intro p hp; simp [runOut] at hp, h⟩
  | cons e es ih =>
    obtain ⟨ihout, ihdead⟩ := ih (step s e).1 (dead_step s e i h)
    refine ⟨?_, ihdead⟩
    intro p hp
    rcases List.mem_append.mp hp with h1 | h1
    · exact dead_step_noout s e i h p h1
    · exact ihout p h1

theorem out_lt_run (s : SagaState) (l : List Ev) (h : Inv s) :
    ∀ p ∈ runOut s l, p.1 < (runState s l).nextId := by
  induction l generalizing s with
  | nil =>
    intro p hp
    simp [runOut] at hp
  | cons e es ih =>
    intro p hp
    rcases List.mem_append.mp hp with h1 | h1
    · exact Nat.lt_of_lt_of_le
        (Nat.lt_of_lt_of_le (out_tag_lt_step s e h p h1) (nextId_mono_step s e))
        (nextId_mono_run _ es)
    · exact ih _ (inv_step s e h) p h1

theorem noresolve_noout (s : SagaState) (l : List Ev) (i : Nat)
    (h : ∀ e ∈ l, resolvesId i e = false) :
    NoOutputFor (runOut s l) i := by
  induction l generalizing s with
  | nil =>
    intro p hp
    simp [runOut] at hp
  | cons e es ih =>
    intro p hp
    rcases List.mem_append.mp hp with h1 | h1
    · cases e with
      | dispatch a =>
        simp [step] at h1
      | resolve j r =>
        have hji : j ≠ i := by
          simpa [resolvesId] using h _ (List.mem_cons_self _ _)
        cases hf : s.pending.find? (fun t => t.id == j) with
        | none => simp [step, hf] at h1
        | some t =>
          simp only [step, hf, List.mem_singleton] at h1
          subst h1
          exact hji
    · exact ih _ (fun e' he' => h e' (List.mem_cons_of_mem _ he')) p h1

theorem live_run (s : SagaState) (l : List Ev) (i : Nat) (a : Action)
    (h : Live s i a)
    (hd : ∀ e ∈ l, sameKindDispatch a.kind e = false)
    (hr : ∀ e ∈ l, resolvesId i e = false) :
    Live (runState s l) i a := by
  induction l generalizing s with
  | nil => exact h
  | cons e es ih =>
    exact ih _
      (live_step s e i a h (hd e (List.mem_cons_self _ _))
        (hr e (List.mem_cons_self _ _)))
      (fun e' he' => hd e' (List.mem_cons_of_mem _ he'))
      (fun e' he' => hr e' (List.mem_cons_of_mem _ he'))

theorem noout_countP_zero (outs : List (Nat × OutEvent)) (i : Nat)
    (h : NoOutputFor outs i) :
    outs.countP (fun p => p.1 == i) = 0 := by
  refine List.countP_eq_zero.mpr ?_
  intro p hp
  simpa using h p hp

theorem count_le_one (s : SagaState) (l : List Ev) (i : Nat) (h : Inv s) :
    (runOut s l).countP (fun p => p.1 == i) ≤ 1 := by
  induction l generalizing s with
  | nil => simp [runOut]
  | cons e es ih =>
    rw [show runOut s (e :: es) = (step s e).2 ++ runOut (step s e).1 es from rfl,
      List.countP_append]
    cases e with
    | dispatch a =>
      simpa [step] using ih _ (inv_step s (Ev.dispatch a) h)
    | resolve j r =>
      cases hf : s.pending.find? (fun t => t.id == j) with
      | none =>
        simpa [step, hf] using ih _ (inv_step s (Ev.resolve j r) h)
      | some t =>
        have ht : t ∈ s.pending := List.mem_of_find?_eq_some hf
        have hid : t.id = j := by simpa using List.find?_some hf
        by_cases hji : j = i
        · subst hji
          have hdead : Dead (step s (Ev.resolve j r)).1 j := by
            refine ⟨by simpa [step, hf] using hid ▸ h t ht, ?_⟩
            intro u hu
            simp only [step, hf] at hu
            simpa using (List.mem_filter.mp hu).2
          have hrest :=
            noout_countP_zero _ j (dead_run_noout ((step s (Ev.resolve j r)).1) es j hdead).1
          have hhead : ((step s (Ev.resolve j r)).2).countP (fun p => p.1 == j) = 1 := by
            simp [step, hf]
          rw [hhead, hrest]
        · have hhead : ((step s (Ev.resolve j r)).2).countP (fun p => p.1 == i) = 0 := by
            simp [step, hf, hji]
          rw [hhead]
          simpa using ih _ (inv_step s (Ev.resolve j r) h)

theorem emit_unique (s : SagaState) (l : List Ev) (i : Nat)
    (e₁ e₂ : OutEvent) (h : Inv s)
    (h₁ : (i, e₁) ∈ runOut s l) (h₂ : (i, e₂) ∈ runOut s l) : e₁ = e₂ := by
  induction l generalizing s with
  | nil => simp [runOut] at h₁
  | cons ev es ih =>
    rw [show runOut s (ev :: es) = (step s ev).2 ++ runOut (step s ev).1 es from rfl]
      at h₁ h₂
    cases ev with
    | dispatch a =>
      rw [dispatch_noout, List.nil_append] at h₁ h₂
      exact ih _ (inv_step s (Ev.dispatch a) h) h₁ h₂
    | resolve j r =>
      cases hf : s.pending.find? (fun t => t.id == j) with
      | none =>
        simp only [step, hf, List.nil_append] at h₁ h₂
        exact ih s h h₁ h₂
      | some t =>
        have ht : t ∈ s.pending := List.mem_of_find?_eq_some hf
        have hid : t.id = j := by simpa using List.find?_some hf
        have hdead : j = i → Dead (step s (Ev.resolve j r)).1 i := by
          intro hji
          subst hji
          refine ⟨by simpa [step, hf] using hid ▸ h t ht, ?_⟩
          intro u hu
          simp only [step, hf] at hu
          simpa using (List.mem_filter.mp hu).2
        rcases List.mem_append.mp h₁ with m₁ | m₁ <;>
          rcases List.mem_append.mp h₂ with m₂ | m₂
        · simp only [step, hf, List.mem_singleton] at m₁ m₂
          have := m₁.trans m₂.symm
          exact (Prod.mk.injEq _ _ _ _).mp this |>.2
        · simp only [step, hf, List.mem_singleton] at m₁
          have hji : j = i := ((Prod.mk.injEq _ _ _ _).mp m₁.symm).1
          exact absurd rfl
            ((dead_run_noout _ es i (hdead hji)).1 (i, e₂) m₂)
        · simp only [step, hf, List.mem_singleton] at m₂
          have hji : j = i := ((Prod.mk.injEq _ _ _ _).mp m₂.symm).1
          exact absurd rfl
            ((dead_run_noout _ es i (hdead hji)).1 (i, e₁) m₁)
        · exact ih _ (inv_step s (Ev.resolve j r) h) m₁ m₂

theorem noOut_core (l₁ l₂ l₃ : List Ev) (a1 a2 : Action)
    (hk : a1.kind = a2.kind)
    (hnr : ∀ e ∈ l₂, resolvesId (runState initState l₁).nextId e = false) :
    NoOutputFor
      (runOut initState
        (l₁ ++ Ev.dispatch a1 :: (l₂ ++ Ev.dispatch a2 :: l₃)))
      (runState initState l₁).nextId := by
  intro p hp
  have hInv1 : Inv (runState initState l₁) := inv_run _ _ inv_init
  rw [runOut_append] at hp
  rw [show runOut (runState initState l₁) (Ev.dispatch a1 :: (l₂ ++ Ev.dispatch a2 :: l₃)) =
        (step (runState initState l₁) (Ev.dispatch a1)).2 ++
          runOut (step (runState initState l₁) (Ev.dispatch a1)).1
            (l₂ ++ Ev.dispatch a2 :: l₃) from rfl,
      dispatch_noout, List.nil_append, runOut_append] at hp
  rw [show runOut (runState (step (runState initState l₁) (Ev.dispatch a1)).1 l₂)
        (Ev.dispatch a2 :: l₃) =
        (step (runState (step (runState initState l₁) (Ev.dispatch a1)).1 l₂)
            (Ev.dispatch a2)).2 ++
          runOut (step (runState (step (runState initState l₁) (Ev.dispatch a1)).1 l₂)
            (Ev.dispatch a2)).1 l₃ from rfl,
      dispatch_noout, List.nil_append] at hp
  rcases List.mem_append.mp hp with h1 | h1
  · exact Nat.ne_of_lt (out_lt_run initState l₁ inv_init p h1)
  rcases List.mem_append.mp h1 with h2 | h2
  · exact noresolve_noout _ l₂ _ hnr p h2
  · have htr1 : Tracked (step (runState initState l₁) (Ev.dispatch a1)).1
        (runState initState l₁).nextId a1 :=
      (dispatch_live (runState initState l₁) a1 hInv1).1
    have htr2 := tracked_run _ l₂ _ _ htr1
    have hdead := tracked_dispatch_same_dead _ _ _ a2 htr2 hk.symm
    exact (dead_run_noout _ l₃ _ hdead).1 p h2

theorem emits_core (l₁ l₂ l₃ : List Ev) (a1 : Action)
    (r : Except HttpError Json)
    (hd : ∀ e ∈ l₂, sameKindDispatch a1.kind e = false)
    (hnr : ∀ e ∈ l₂, resolvesId (runState initState l₁).nextId e = false) :
    EmitsFor
      (runOut initState
        (l₁ ++ Ev.dispatch a1 ::
          (l₂ ++ Ev.resolve (runState initState l₁).nextId r :: l₃)))
      (runState initState l₁).nextId (emitFor a1.kind r) := by
  have hInv1 : Inv (runState initState l₁) := inv_run _ _ inv_init
  rw [EmitsFor, runOut_append]
  rw [show runOut (runState initState l₁)
        (Ev.dispatch a1 :: (l₂ ++ Ev.resolve (runState initState l₁).nextId r :: l₃)) =
        (step (runState initState l₁) (Ev.dispatch a1)).2 ++
          runOut (step (runState initState l₁) (Ev.dispatch a1)).1
            (l₂ ++ Ev.resolve (runState initState l₁).nextId r :: l₃) from rfl,
      dispatch_noout, List.nil_append, runOut_append]
  have hlive1 : Live (step (runState initState l₁) (Ev.dispatch a1)).1
      (runState initState l₁).nextId a1 :=
    dispatch_live (runState initState l₁) a1 hInv1
  have hlive2 := live_run _ l₂ _ _ hlive1 hd hnr
  have hout := (live_resolve_out _ _ _ r hlive2).1
  rw [show runOut (runState (step (runState initState l₁) (Ev.dispatch a1)).1 l₂)
        (Ev.resolve (runState initState l₁).nextId r :: l₃) =
        (step (runState (step (runState initState l₁) (Ev.dispatch a1)).1 l₂)
            (Ev.resolve (runState initState l₁).nextId r)).2 ++
          runOut (step (runState (step (runState initState l₁) (Ev.dispatch a1)).1 l₂)
            (Ev.resolve (runState initState l₁).nextId r)).1 l₃ from rfl,
      hout]
  simp

/-- C1: Latest-wins per trigger kind: for every two triggers of the same
kind dispatched in that order, the second arriving (dispatch of `a2`)
before the first's task has emitted its outcome (no resolve of that task
occurs between the two dispatches), the first task never emits any
outcome — success or failure — anywhere in the whole trace, regardless of
which network call resolves first. -/
theorem claim_C1_latest_wins (l₁ l₂ l₃ : List Ev) (a1 a2 : Action)
    (hk : a1.kind = a2.kind)
    (hnr : ∀ e ∈ l₂, resolvesId (runState initState l₁).nextId e = false) :
    NoOutputFor
      (runOut initState (l₁ ++ Ev.dispatch a1 :: (l₂ ++ Ev.dispatch a2 :: l₃)))
      (runState initState l₁).nextId :=
  noOut_core l₁ l₂ l₃ a1 a2 hk hnr

/-- Witness for C1: two rapid `LOAD_STREAMS` triggers; the first task
resolves over the wire (with payload A) and then the second (with payload
B); the first task's resolution produces no event. -/
theorem claim_C1_latest_wins_witness :
    NoOutputFor
      (runOut initState
        [Ev.dispatch (loadA "t1" "tp1"), Ev.dispatch (loadA "t1" "tp1"),
         Ev.resolve 0 (Except.ok (Json.arr [Json.str "A"])),
         Ev.resolve 1 (Except.ok (Json.arr [Json.str "B"]))]) 0 :=
  claim_C1_latest_wins [] []
    [Ev.resolve 0 (Except.ok (Json.arr [Json.str "A"])),
     Ev.resolve 1 (Except.ok (Json.arr [Json.str "B"]))]
    (loadA "t1" "tp1") (loadA "t1" "tp1") rfl (by simp)

/-- C2 counterexample: two `UPDATE_STREAM` triggers for different
streamIds ("s1" then "s2") dispatched in immediate succession.  Contrary
to the claim, the outcomes are not independent: only the second task's
outcome appears in the trace, and the first task (id 0) emits nothing
even though its network call resolves. -/
theorem claim_C2_counterexample :
    runOut initState
      [Ev.dispatch (updateA "t1" "tp1" "s1" (Json.str "INCREMENTAL")),
       Ev.dispatch (updateA "t1" "tp1" "s2" (Json.str "FULL_TABLE")),
       Ev.resolve 0 (Except.ok (Json.str "updated-s1")),
       Ev.resolve 1 (Except.ok (Json.str "updated-s2"))] =
      [(1, OutEvent.updateStreamToReplicateDone (Json.str "updated-s2"))] ∧
    NoOutputFor
      (runOut initState
        [Ev.dispatch (updateA "t1" "tp1" "s1" (Json.str "INCREMENTAL")),
         Ev.dispatch (updateA "t1" "tp1" "s2" (Json.str "FULL_TABLE")),
         Ev.resolve 0 (Except.ok (Json.str "updated-s1")),
         Ev.resolve 1 (Except.ok (Json.str "updated-s2"))]) 0 := by
  have h : runOut initState
      [Ev.dispatch (updateA "t1" "tp1" "s1" (Json.str "INCREMENTAL")),
       Ev.dispatch (updateA "t1" "tp1" "s2" (Json.str "FULL_TABLE")),
       Ev.resolve 0 (Except.ok (Json.str "updated-s1")),
       Ev.resolve 1 (Except.ok (Json.str "updated-s2"))] =
      [(1, OutEvent.updateStreamToReplicateDone (Json.str "updated-s2"))] := rfl
  refine ⟨h, ?_⟩
  intro p hp
  rw [h] at hp
  simp only [List.mem_singleton] at hp
  subst hp
  simp

/-- C2 (amended): supersession of `UPDATE_STREAM` tasks is keyed per
trigger kind, not per stream: a second `UPDATE_STREAM` trigger dispatched
before the first's task has emitted suppresses the first task's outcome
even when the two triggers carry different `streamId` values. -/
theorem claim_C2_kind_level_supersession (l₁ l₂ l₃ : List Ev)
    (u1 u2 : Action)
    (h1 : u1.kind = Kind.updateStream) (h2 : u2.kind = Kind.updateStream)
    (_hs : u1.streamId ≠ u2.streamId)
    (hnr : ∀ e ∈ l₂, resolvesId (runState initState l₁).nextId e = false) :
    NoOutputFor
      (runOut initState (l₁ ++ Ev.dispatch u1 :: (l₂ ++ Ev.dispatch u2 :: l₃)))
      (runState initState l₁).nextId :=
  noOut_core l₁ l₂ l₃ u1 u2 (h1.trans h2.symm) hnr

/-- Witness for the amended C2: updates to streams "s1" and "s2" in
immediate succession; the first task (id 0) emits nothing. -/
theorem claim_C2_kind_level_supersession_witness :
    NoOutputFor
      (runOut initState
        [Ev.dispatch (updateA "t1" "tp1" "s1" (Json.str "INCREMENTAL")),
         Ev.dispatch (updateA "t1" "tp1" "s2" (Json.str "FULL_TABLE")),
         Ev.resolve 0 (Except.ok (Json.str "updated-s1")),
         Ev.resolve 1 (Except.ok (Json.str "updated-s2"))]) 0 :=
  claim_C2_kind_level_supersession [] []
    [Ev.resolve 0 (Except.ok (Json.str "updated-s1")),
     Ev.resolve 1 (Except.ok (Json.str "updated-s2"))]
    (updateA "t1" "tp1" "s1" (Json.str "INCREMENTAL"))
    (updateA "t1" "tp1" "s2" (Json.str "FULL_TABLE"))
    rfl rfl (by decide) (by simp)

/-- C3: Kind independence: a task spawned by a trigger of one kind still
emits its outcome even if arbitrarily many triggers of the other kind are
dispatched while it is in flight (every dispatch between its spawn and
its resolution is of a different kind); supersession happens only between
tasks of the same trigger kind. -/
theorem claim_C3_kind_independence (l₁ l₂ l₃ : List Ev) (a1 : Action)
    (r : Except HttpError Json)
    (hd : ∀ e ∈ l₂, sameKindDispatch a1.kind e = false)
    (hnr : ∀ e ∈ l₂, resolvesId (runState initState l₁).nextId e = false) :
    EmitsFor
      (runOut initState
        (l₁ ++ Ev.dispatch a1 ::
          (l₂ ++ Ev.resolve (runState initState l₁).nextId r :: l₃)))
      (runState initState l₁).nextId (emitFor a1.kind r) :=
  emits_core l₁ l₂ l₃ a1 r hd hnr

/-- Witness for C3: a `LOAD_STREAMS` trigger dispatched while an
`UPDATE_STREAM` task is in flight does not suppress the update's
outcome. -/
theorem claim_C3_kind_independence_witness :
    EmitsFor
      (runOut initState
        [Ev.dispatch (updateA "t1" "tp1" "s1" (Json.str "INCREMENTAL")),
         Ev.dispatch (loadA "t1" "tp1"),
         Ev.resolve 0 (Except.ok (Json.str "updated-s1"))]) 0
      (OutEvent.updateStreamToReplicateDone (Json.str "updated-s1")) :=
  claim_C3_kind_independence [] [Ev.dispatch (loadA "t1" "tp1")] []
    (updateA "t1" "tp1" "s1" (Json.str "INCREMENTAL"))
    (Except.ok (Json.str "updated-s1"))
    (by decide) (by decide)

/-- C4: Mutual exclusivity of terminal events: in any trace, a task emits
at most one terminal event, so no task ever emits both a success event
and an error event; a task's three possible fates (success outcome,
failure outcome, no outcome when superseded or never resolved) are
mutually exclusive. -/
theorem claim_C4_at_most_one_outcome (l : List Ev) (i : Nat) :
    (runOut initState l).countP (fun p => p.1 == i) ≤ 1 :=
  count_le_one initState l i inv_init

/-- C5: Request shape: a `LOAD_STREAMS` trigger issues a GET to
/targets/(targetId)/taps/(tapId)/streams with no headers and no body; an
`UPDATE_STREAM` trigger issues a PATCH to
/targets/(targetId)/taps/(tapId)/streams/(streamId) with the
Content-Type: application/json header and the JSON encoding of `params`
as its body. -/
theorem claim_C5_request_shape (tid tap sid : String) (p : Json) :
    requestFor ⟨Kind.loadStreams, some tid, some tap, none, none⟩ =
      ⟨Method.GET,
        "http://localhost:5000/targets/" ++ tid ++ "/taps/" ++ tap ++ "/streams",
        [], none⟩ ∧
    requestFor ⟨Kind.updateStream, some tid, some tap, some sid, some p⟩ =
      ⟨Method.PATCH,
        "http://localhost:5000/targets/" ++ tid ++ "/taps/" ++ tap ++
          "/streams/" ++ sid,
        [("Content-Type", "application/json")], some (Json.stringify p)⟩ :=
  ⟨rfl, rfl⟩

/-- C6: Error and success pass-through: a non-superseded task (no
same-kind dispatch and no resolution of it occur while it is in flight)
emits exactly the terminal event determined by the collaborator's result,
and that event carries the payload or the error unmodified: `Except.ok p`
becomes the success event on `p` and `Except.error e` becomes the error
event on `e`, with no retry, reclassification or swallowing. -/
theorem claim_C6_passthrough (l₁ l₂ l₃ : List Ev) (a1 : Action)
    (r : Except HttpError Json)
    (hd : ∀ e ∈ l₂, sameKindDispatch a1.kind e = false)
    (hnr : ∀ e ∈ l₂, resolvesId (runState initState l₁).nextId e = false) :
    EmitsFor
      (runOut initState
        (l₁ ++ Ev.dispatch a1 ::
          (l₂ ++ Ev.resolve (runState initState l₁).nextId r :: l₃)))
      (runState initState l₁).nextId (emitFor a1.kind r) ∧
    (∀ e', EmitsFor
        (runOut initState
          (l₁ ++ Ev.dispatch a1 ::
            (l₂ ++ Ev.resolve (runState initState l₁).nextId r :: l₃)))
        (runState initState l₁).nextId e' → e' = emitFor a1.kind r) ∧
    (∀ p, emitFor Kind.loadStreams (Except.ok p) = OutEvent.streamsLoaded p) ∧
    (∀ e, emitFor Kind.loadStreams (Except.error e) =
      OutEvent.streamsLoadedError e) ∧
    (∀ p, emitFor Kind.updateStream (Except.ok p) =
      OutEvent.updateStreamToReplicateDone p) ∧
    (∀ e, emitFor Kind.updateStream (Except.error e) =
      OutEvent.updateStreamToReplicateError e) := by
  have hmem := emits_core l₁ l₂ l₃ a1 r hd hnr
  refine ⟨hmem, ?_, fun _ => rfl, fun _ => rfl, fun _ => rfl, fun _ => rfl⟩
  intro e' he'
  exact emit_unique initState _ _ e' (emitFor a1.kind r) inv_init he' hmem

/-- Witness for C6: an `UPDATE_STREAM` task whose collaborator rejects
with an HTTP 500 error emits the update-error event carrying exactly that
error. -/
theorem claim_C6_passthrough_witness :
    EmitsFor
      (runOut initState
        [Ev.dispatch (updateA "t1" "tp1" "s1" (Json.str "INCREMENTAL")),
         Ev.resolve 0 (Except.error ⟨"Internal Server Error", some 500⟩)]) 0
      (OutEvent.updateStreamToReplicateError ⟨"Internal Server Error", some 500⟩) :=
  (claim_C6_passthrough [] [] []
    (updateA "t1" "tp1" "s1" (Json.str "INCREMENTAL"))
    (Except.error ⟨"Internal Server Error", some 500⟩)
    (by simp) (by simp)).1

/-- C7: Determinism of request construction: two triggers of the same
kind with equal `targetId`, `tapId`, `streamId` and `params` fields
generate identical HTTP requests (method, URL, headers and body);
request construction depends on nothing but the trigger's fields. -/
theorem claim_C7_deterministic_requests (a1 a2 : Action)
    (hk : a1.kind = a2.kind)
    (ht : a1.targetId = a2.targetId) (hp : a1.tapId = a2.tapId)
    (hs : a1.streamId = a2.streamId) (hq : a1.params = a2.params) :
    requestFor a1 = requestFor a2 ∧
    getStreamsRequest a1 = getStreamsRequest a2 ∧
    updateStreamRequest a1 = updateStreamRequest a2 := by
  obtain ⟨k1, t1, p1, s1, q1⟩ := a1
  obtain ⟨k2, t2, p2, s2, q2⟩ := a2
  dsimp only at hk ht hp hs hq
  subst hk
  subst ht
  subst hp
  subst hs
  subst hq
  exact ⟨rfl, rfl, rfl⟩

/-- Witness for C7: the same update trigger fields written twice generate
the same request. -/
theorem claim_C7_deterministic_requests_witness :
    requestFor (updateA "t1" "tp1" "s1" (Json.str "INCREMENTAL")) =
      requestFor ⟨Kind.updateStream, some "t1", some "tp1", some "s1",
        some (Json.str "INCREMENTAL")⟩ ∧
    getStreamsRequest (updateA "t1" "tp1" "s1" (Json.str "INCREMENTAL")) =
      getStreamsRequest ⟨Kind.updateStream, some "t1", some "tp1", some "s1",
        some (Json.str "INCREMENTAL")⟩ ∧
    updateStreamRequest (updateA "t1" "tp1" "s1" (Json.str "INCREMENTAL")) =
      updateStreamRequest ⟨Kind.updateStream, some "t1", some "tp1", some "s1",
        some (Json.str "INCREMENTAL")⟩ :=
  claim_C7_deterministic_requests
    (updateA "t1" "tp1" "s1" (Json.str "INCREMENTAL"))
    ⟨Kind.updateStream, some "t1", some "tp1", some "s1",
      some (Json.str "INCREMENTAL")⟩
    rfl rfl rfl rfl rfl

/-- C8: No precondition enforcement: for every trigger, even one whose
`targetId`, `tapId` or `streamId` is empty or absent, the request URL is
built by verbatim interpolation of the fields (an absent field appearing
as the text "undefined", an empty field as the empty string), and
dispatching a trigger emits no failure outcome before the network call
resolves. -/
theorem claim_C8_no_validation (a : Action) :
    (getStreamsRequest a).url =
      "http://localhost:5000/targets/" ++ interp a.targetId ++ "/taps/" ++
        interp a.tapId ++ "/streams" ∧
    (updateStreamRequest a).url =
      "http://localhost:5000/targets/" ++ interp a.targetId ++ "/taps/" ++
        interp a.tapId ++ "/streams/" ++ interp a.streamId ∧
    interp none = "undefined" ∧
    interp (some "") = "" ∧
    runOut initState [Ev.dispatch a] = [] :=
  ⟨rfl, rfl, rfl, rfl, rfl⟩

/-- C9: Hardcoded endpoint base: every request URL of either kind starts
with the fixed literal "http://localhost:5000"; the base is the same
literal for every trigger and comes from no configuration. -/
theorem claim_C9_fixed_base (a : Action) :
    (∃ rest, (getStreamsRequest a).url = "http://localhost:5000" ++ rest) ∧
    (∃ rest, (updateStreamRequest a).url = "http://localhost:5000" ++ rest) ∧
    (∃ rest, (requestFor a).url = "http://localhost:5000" ++ rest) := by
  have hg : ∃ rest, (getStreamsRequest a).url = "http://localhost:5000" ++ rest :=
    ⟨"/targets/" ++ interp a.targetId ++ "/taps/" ++ interp a.tapId ++ "/streams",
      rfl⟩
  have hu : ∃ rest, (updateStreamRequest a).url = "http://localhost:5000" ++ rest :=
    ⟨"/targets/" ++ interp a.targetId ++ "/taps/" ++ interp a.tapId ++
      "/streams/" ++ interp a.streamId, rfl⟩
  refine ⟨hg, hu, ?_⟩
  cases hk : a.kind with
  | loadStreams =>
    simpa [requestFor, hk] using hg
  | updateStream =>
    simpa [requestFor, hk] using hu

/-- C10: Store-state noninterference: the workers never read the redux
store (the imported `select` effect is unused), so two runs with the same
trigger fields and the same collaborator result produce the same request
and the same terminal event whatever the store states are. -/
theorem claim_C10_store_noninterference (Store : Type) (σ1 σ2 : Store)
    (a : Action) (r : Except HttpError Json) :
    workerObservation Store σ1 a r = workerObservation Store σ2 a r := rfl

end Saga
